import Mathlib

/-!
Verification of the visual-composition and caching core of
`src/stemmogram.py` against its natural-language specification.

The Python source is embedded shallowly: pure arithmetic becomes exact
arithmetic over `ℕ`, `ℤ` and `ℚ`, the filesystem is a predicate
`String → Bool`, drawing calls become explicit lists of draw operations,
and Python exceptions become explicit outcome values.  Line numbers in
doc comments refer to `src/stemmogram.py`.
-/

namespace Stemmogram

/-- Stem order of the program, `STEMS = ["vocals", "other", "bass", "drums"]`
(line 16).  This list drives both the separation file names and the
vertical stacking order of the final image. -/
def STEMS : List String := ["vocals", "other", "bass", "drums"]

/-- Canvas width in pixels (line 31). -/
def WIDTH : ℕ := 1920

/-- Height of one stem strip (line 32). -/
def SPEC_HEIGHT : ℕ := 250

/-- Header banner height (line 33). -/
def HEADER_HEIGHT : ℕ := 80

/-- Total canvas height, `HEADER_HEIGHT + len(STEMS) * SPEC_HEIGHT` (line 34). -/
def TOTAL_HEIGHT : ℕ := HEADER_HEIGHT + STEMS.length * SPEC_HEIGHT

/-- An RGB colour triple with channels in `[0, 255]`. -/
abbrev RGB := ℕ × ℕ × ℕ

/-- Per-channel tint map of `tint_spectrogram` (lines 295-297):
`int(color[c] + p * (255 - color[c]) / 255)`.
For `0 ≤ c, p ≤ 255` every intermediate Python float is exact
(`p * (255 - c) ≤ 65025` is an exact double and the quotient is at
distance at least `1/255` from the nearest integer unless it is itself an
integer), so `int` truncation coincides with natural-number floor
division. -/
def tintChannel (c p : ℕ) : ℕ := c + p * (255 - c) / 255

/-- Whole-pixel tint: `tint_spectrogram` applies `tintChannel` to the three
channels of the tint colour (lines 295-299). -/
def tintPixel (color : RGB) (p : ℕ) : RGB :=
  (tintChannel color.1 p, tintChannel color.2.1 p, tintChannel color.2.2 p)

/-- C1: for every intensity value `v` in `[0,255]` and tint colour `T`
(channels in `[0,255]`), the colorize map yields exactly `T` at `v = 0`,
exactly white `(255,255,255)` at `v = 255`, and each channel is
monotonically non-decreasing in `v`. -/
theorem tint_endpoints_monotone (T : RGB)
    (h1 : T.1 ≤ 255) (h2 : T.2.1 ≤ 255) (h3 : T.2.2 ≤ 255) :
    tintPixel T 0 = T ∧ tintPixel T 255 = (255, 255, 255) ∧
    ∀ c v w : ℕ, v ≤ w → tintChannel c v ≤ tintChannel c w := by
  obtain ⟨a, b, d⟩ := T
  refine ⟨?_, ?_, ?_⟩
  · simp [tintPixel, tintChannel]
  · have e : ∀ x : ℕ, x ≤ 255 → tintChannel x 255 = 255 := by
      intro x hx
      unfold tintChannel
      rw [Nat.mul_div_cancel_left _ (by norm_num : 0 < 255)]
      omega
    simp only [tintPixel]
    rw [e a h1, e b h2, e d h3]
  · intro c v w hvw
    unfold tintChannel
    exact Nat.add_le_add_left (Nat.div_le_div_right (Nat.mul_le_mul_right _ hvw)) c

/-- Witness for C1: the "simple" palette vocals tint `(207, 46, 46)`
(line 19) is reproduced at `v = 0` and becomes white at `v = 255`. -/
theorem tint_endpoints_monotone_witness :
    tintPixel (207, 46, 46) 0 = (207, 46, 46) ∧
    tintPixel (207, 46, 46) 255 = (255, 255, 255) := by
  have t := tint_endpoints_monotone (207, 46, 46)
    (by norm_num) (by norm_num) (by norm_num)
  exact ⟨t.1, t.2.1⟩

/-- Python `int()` applied to a real value: truncation toward zero.
All float quantities in the meter code are modelled as exact rationals. -/
def pyTrunc (q : ℚ) : ℤ := if 0 ≤ q then ⌊q⌋ else -⌊-q⌋

/-- Lower end of the loudness scale, `lufs_min = -30` (line 328). -/
def lufs_min : ℚ := -30

/-- Upper end of the loudness scale, `lufs_max = 0` (line 328). -/
def lufs_max : ℚ := 0

/-- Scale width, `scale_range = lufs_max - lufs_min` (line 329). -/
def scale_range : ℚ := lufs_max - lufs_min

/-- Linear loudness-to-pixel map of `create_lufs_range_bar` (lines 331-332):
`int((lufs - lufs_min) / scale_range * width)`. -/
def lufs_to_x (width : ℕ) (lufs : ℚ) : ℤ :=
  pyTrunc ((lufs - lufs_min) / scale_range * width)

/-- Loudness clamped to the scale, `max(lufs_min, min(lufs_max, lufs_value))`
(line 346). -/
def lufs_clamped (lufs : ℚ) : ℚ := max lufs_min (min lufs_max lufs)

/-- Loudness-range fallback and clamp (lines 349-351): a missing LRA becomes
the default `6`, then the value is clamped to `[2, 20]`. -/
def lra_clamped (lra : Option ℚ) : ℚ := max 2 (min 20 (lra.getD 6))

/-- Left end of the bar in loudness units (line 354). -/
def bar_lufs_left (lufs : ℚ) (lra : Option ℚ) : ℚ :=
  lufs_clamped lufs - lra_clamped lra / 2

/-- Right end of the bar in loudness units (line 355). -/
def bar_lufs_right (lufs : ℚ) (lra : Option ℚ) : ℚ :=
  lufs_clamped lufs + lra_clamped lra / 2

/-- Left pixel bound of the bar, `max(0, lufs_to_x(bar_lufs_left))` (line 360). -/
def bar_left (width : ℕ) (lufs : ℚ) (lra : Option ℚ) : ℤ :=
  max 0 (lufs_to_x width (bar_lufs_left lufs lra))

/-- Right pixel bound of the bar, `min(width - 1, lufs_to_x(bar_lufs_right))`
(line 361). -/
def bar_right (width : ℕ) (lufs : ℚ) (lra : Option ℚ) : ℤ :=
  min ((width : ℤ) - 1) (lufs_to_x width (bar_lufs_right lufs lra))

/-- Pixel position of the loudness value itself (line 384). -/
def center_x (width : ℕ) (lufs : ℚ) : ℤ := lufs_to_x width (lufs_clamped lufs)

/-- Width of the centre marker (line 385). -/
def marker_width : ℕ := 3

/-- Left x of the marker rectangle, `max(bar_left, center_x - marker_width // 2)`
(line 386). -/
def marker_left (width : ℕ) (lufs : ℚ) (lra : Option ℚ) : ℤ :=
  max (bar_left width lufs lra) (center_x width lufs - (marker_width / 2 : ℕ))

/-- Right x of the marker rectangle, `min(bar_right, center_x + marker_width // 2)`
(line 387). -/
def marker_right (width : ℕ) (lufs : ℚ) (lra : Option ℚ) : ℤ :=
  min (bar_right width lufs lra) (center_x width lufs + (marker_width / 2 : ℕ))

/-- The four loudness zones with their boundaries and colours (lines 364-369):
quiet (blue) below `-18`, streaming target (green) `-18` to `-14`, loud
(orange) `-14` to `-9`, too loud (red) above `-9`. -/
def zones : List (ℚ × ℚ × RGB) :=
  [(-30, -18, (70, 130, 180)),
   (-18, -14, (50, 180, 50)),
   (-14, -9, (255, 165, 0)),
   (-9, 0, (220, 50, 50))]

/-- Pixel semantics of the zone-segment drawing loop (lines 371-381): the
final colour of pixel column `x` inside the bar area after the loop, where
each zone whose loudness overlap with the bar is non-empty paints the
inclusive pixel range `[x_left, x_right]`, later zones overwriting earlier
ones on shared columns.  `none` means the column was not painted by any
zone segment. -/
def zoneSegmentColor (width : ℕ) (lufs : ℚ) (lra : Option ℚ) (x : ℤ) : Option RGB :=
  zones.foldl
    (fun acc z =>
      let overlap_min := max (bar_lufs_left lufs lra) z.1
      let overlap_max := min (bar_lufs_right lufs lra) z.2.1
      if overlap_min < overlap_max then
        let x_left := max (bar_left width lufs lra) (lufs_to_x width overlap_min)
        let x_right := min (bar_right width lufs lra) (lufs_to_x width overlap_max)
        if x_left < x_right ∧ x_left ≤ x ∧ x ≤ x_right then some z.2.2 else acc
      else acc)
    none

/-- An RGBA colour. -/
abbrev RGBA := ℕ × ℕ × ℕ × ℕ

/-- One PIL drawing primitive issued by the range-bar renderer. -/
inductive DrawOp where
  | rect (x0 y0 x1 y1 : ℤ) (fill : RGBA)
  | line (x0 y0 x1 y1 : ℤ) (fill : RGBA) (lineWidth : ℕ)
deriving DecidableEq

/-- Height of the neutral background track (line 335). -/
def track_height : ℤ := 8

/-- Tick-mark positions (line 340). -/
def tick_values : List ℚ := [-24, -18, -14, -9]

/-- Bracket end-cap height (line 391). -/
def bracket_height : ℤ := 6

/-- Full drawing sequence of `create_lufs_range_bar` (lines 310-397):
background track, tick marks, zone segments, centre marker, bracket
end-caps, in source order. -/
def rangeBarOps (lufs : ℚ) (lra : Option ℚ) (width height : ℕ) : List DrawOp :=
  let track_y : ℤ := ((height : ℤ) - track_height).fdiv 2
  let bar_height : ℤ := (height : ℤ) - 4
  let bar_y : ℤ := 2
  let bl := bar_left width lufs lra
  let br := bar_right width lufs lra
  [DrawOp.rect 0 track_y ((width : ℤ) - 1) (track_y + track_height - 1) (220, 220, 220, 255)]
  ++ tick_values.map (fun tick =>
       DrawOp.line (lufs_to_x width tick) (track_y - 2)
         (lufs_to_x width tick) (track_y + track_height + 1) (180, 180, 180, 255) 1)
  ++ zones.foldl
       (fun acc z =>
         let overlap_min := max (bar_lufs_left lufs lra) z.1
         let overlap_max := min (bar_lufs_right lufs lra) z.2.1
         if overlap_min < overlap_max then
           let x_left := max bl (lufs_to_x width overlap_min)
           let x_right := min br (lufs_to_x width overlap_max)
           if x_left < x_right then
             acc ++ [DrawOp.rect x_left bar_y x_right (bar_y + bar_height - 1)
               (z.2.2.1, z.2.2.2.1, z.2.2.2.2, 255)]
           else acc
         else acc)
       []
  ++ [DrawOp.rect (marker_left width lufs lra) bar_y (marker_right width lufs lra)
       (bar_y + bar_height - 1) (255, 255, 255, 200)]
  ++ [DrawOp.line bl bar_y bl (bar_y + bracket_height) (0, 0, 0, 180) 2,
      DrawOp.line br bar_y br (bar_y + bracket_height) (0, 0, 0, 180) 2,
      DrawOp.line bl (bar_y + bar_height - 1) bl (bar_y + bar_height - 1 - bracket_height) (0, 0, 0, 180) 2,
      DrawOp.line br (bar_y + bar_height - 1) br (bar_y + bar_height - 1 - bracket_height) (0, 0, 0, 180) 2]

/-- C9: rendering the range bar with a missing loudness-range value produces
the identical drawing sequence as rendering it with the default range of 6
loudness units (lines 348-350). -/
theorem range_bar_default_lra (lufs : ℚ) (w h : ℕ) :
    rangeBarOps lufs none w h = rangeBarOps lufs (some 6) w h := rfl

/-- Clamping to `[2, 20]` is idempotent. -/
theorem clamp_idem (r : ℚ) :
    max 2 (min 20 (max 2 (min 20 r))) = max 2 (min 20 r) := by
  rcases le_total r 2 with h1 | h1
  · have hr20 : r ≤ 20 := le_trans h1 (by norm_num)
    rw [min_eq_right hr20, max_eq_left h1]
    norm_num
  · rcases le_total r 20 with h2 | h2
    · rw [min_eq_right h2, max_eq_right h1, min_eq_right h2, max_eq_right h1]
    · rw [min_eq_left h2]
      norm_num

/-- The range-bar drawing depends on the provided LRA only through
`lra_clamped`. -/
theorem rangeBarOps_lra_congr (lufs : ℚ) (l1 l2 : Option ℚ) (w h : ℕ)
    (hc : lra_clamped l1 = lra_clamped l2) :
    rangeBarOps lufs l1 w h = rangeBarOps lufs l2 w h := by
  simp only [rangeBarOps, bar_left, bar_right, marker_left, marker_right,
    bar_lufs_left, bar_lufs_right, hc]

/-- C10: the rendered range bar for a provided LRA value `r` equals the bar
rendered with `r` clamped into `[2, 20]` (line 351): the represented range
width is silently coerced into that interval. -/
theorem range_bar_lra_clamp (lufs r : ℚ) (w h : ℕ) :
    rangeBarOps lufs (some r) w h = rangeBarOps lufs (some (max 2 (min 20 r))) w h := by
  apply rangeBarOps_lra_congr
  unfold lra_clamped
  simp only [Option.getD_some]
  exact (clamp_idem r).symm

/-- Truncation toward zero of a non-negative value is non-negative. -/
theorem pyTrunc_nonneg {q : ℚ} (h : 0 ≤ q) : 0 ≤ pyTrunc q := by
  unfold pyTrunc
  rw [if_pos h]
  exact Int.le_floor.mpr (by exact_mod_cast h)

/-- Truncation toward zero stays below any integer strictly above the value
(provided that integer is positive). -/
theorem pyTrunc_le_sub_one {q : ℚ} {n : ℤ} (hn : 1 ≤ n) (h : q < (n : ℚ)) :
    pyTrunc q ≤ n - 1 := by
  unfold pyTrunc
  split_ifs with h0
  · have hf : ⌊q⌋ < n := Int.floor_lt.mpr h
    omega
  · push_neg at h0
    have hq : (0:ℤ) ≤ ⌊-q⌋ := Int.le_floor.mpr (by push_cast; linarith)
    omega

/-- Truncation toward zero stays below any non-negative integer bound on the
value. -/
theorem pyTrunc_le {q : ℚ} {n : ℤ} (hn : 0 ≤ n) (h : q ≤ (n : ℚ)) :
    pyTrunc q ≤ n := by
  unfold pyTrunc
  split_ifs with h0
  · calc ⌊q⌋ ≤ ⌊(n : ℚ)⌋ := Int.floor_le_floor h
      _ = n := Int.floor_intCast n
  · push_neg at h0
    have hq : (0:ℤ) ≤ ⌊-q⌋ := Int.le_floor.mpr (by push_cast; linarith)
    omega

/-- The clamped loudness lies in `[-30, 0]`. -/
theorem lufs_clamped_mem (lufs : ℚ) :
    -30 ≤ lufs_clamped lufs ∧ lufs_clamped lufs ≤ 0 := by
  unfold lufs_clamped lufs_min lufs_max
  exact ⟨le_max_left _ _, max_le (by norm_num) (min_le_left _ _)⟩

/-- The clamped LRA lies in `[2, 20]`. -/
theorem lra_clamped_mem (lra : Option ℚ) :
    2 ≤ lra_clamped lra ∧ lra_clamped lra ≤ 20 := by
  unfold lra_clamped
  exact ⟨le_max_left _ _, max_le (by norm_num) (min_le_left _ _)⟩

/-- Pixel map lower bound: loudness at least `-30` maps to a non-negative x. -/
theorem lufs_to_x_nonneg (w : ℕ) {l : ℚ} (h : -30 ≤ l) : 0 ≤ lufs_to_x w l := by
  unfold lufs_to_x scale_range lufs_max lufs_min
  apply pyTrunc_nonneg
  have h30 : (0:ℚ) ≤ l - -30 := by linarith
  have hdiv : (0:ℚ) ≤ (l - -30) / (0 - -30) := by
    apply div_nonneg h30
    norm_num
  exact mul_nonneg hdiv (by positivity)

/-- Pixel map upper bound: loudness at most `0` maps to at most `width`. -/
theorem lufs_to_x_le (w : ℕ) {l : ℚ} (h : l ≤ 0) : lufs_to_x w l ≤ (w : ℤ) := by
  unfold lufs_to_x scale_range lufs_max lufs_min
  apply pyTrunc_le (by positivity)
  have h1 : (l - -30) / (0 - -30) ≤ 1 := by
    rw [div_le_one (by norm_num)]
    linarith
  have h2 : (l - -30) / (0 - -30) * w ≤ 1 * w :=
    mul_le_mul_of_nonneg_right h1 (by positivity)
  push_cast
  linarith

/-- Pixel map strict bound: loudness at most `-1` maps to at most `width - 1`. -/
theorem lufs_to_x_le_sub_one (w : ℕ) (hw : 1 ≤ w) {l : ℚ} (h : l ≤ -1) :
    lufs_to_x w l ≤ (w : ℤ) - 1 := by
  unfold lufs_to_x scale_range lufs_max lufs_min
  apply pyTrunc_le_sub_one (by exact_mod_cast hw)
  have hwpos : (0:ℚ) < w := by exact_mod_cast hw
  have h1 : (l - -30) / (0 - -30) < 1 := by
    rw [div_lt_one (by norm_num)]
    linarith
  have h2 : (l - -30) / (0 - -30) * w < 1 * w := mul_lt_mul_of_pos_right h1 hwpos
  push_cast
  linarith

/-- C5 (amended): the raw linear map sends clamped loudness into `[0, width]`
(it reaches `width`, one past the last column, exactly at loudness `0`),
while the drawn marker rectangle x-coordinates, being clamped to the bar
bounds, always lie within `[0, width - 1]`. -/
theorem marker_within_bounds (w : ℕ) (lufs : ℚ) (lra : Option ℚ) (hw : 1 ≤ w) :
    0 ≤ lufs_to_x w (lufs_clamped lufs) ∧ lufs_to_x w (lufs_clamped lufs) ≤ (w : ℤ) ∧
    0 ≤ marker_left w lufs lra ∧ marker_left w lufs lra ≤ (w : ℤ) - 1 ∧
    0 ≤ marker_right w lufs lra ∧ marker_right w lufs lra ≤ (w : ℤ) - 1 := by
  obtain ⟨hclo, hchi⟩ := lufs_clamped_mem lufs
  obtain ⟨hrlo, hrhi⟩ := lra_clamped_mem lra
  have hw1 : (1:ℤ) ≤ (w:ℤ) := by exact_mod_cast hw
  have hbll : bar_lufs_left lufs lra ≤ -1 := by
    unfold bar_lufs_left
    linarith
  have hblr : -29 ≤ bar_lufs_right lufs lra := by
    unfold bar_lufs_right
    linarith
  have hbl0 : 0 ≤ bar_left w lufs lra := le_max_left _ _
  have hbl1 : bar_left w lufs lra ≤ (w:ℤ) - 1 :=
    max_le (by omega) (lufs_to_x_le_sub_one w hw hbll)
  have hbr0 : 0 ≤ bar_right w lufs lra :=
    le_min (by omega) (lufs_to_x_nonneg w (by linarith))
  have hbr1 : bar_right w lufs lra ≤ (w:ℤ) - 1 := min_le_left _ _
  have hc0 : 0 ≤ center_x w lufs := lufs_to_x_nonneg w hclo
  have hc1 : center_x w lufs ≤ (w:ℤ) := lufs_to_x_le w hchi
  have hmw : ((marker_width / 2 : ℕ) : ℤ) = 1 := by norm_num [marker_width]
  refine ⟨hc0, hc1, ?_, ?_, ?_, ?_⟩
  · exact le_trans hbl0 (le_max_left _ _)
  · unfold marker_left
    rw [hmw]
    exact max_le hbl1 (by omega)
  · unfold marker_right
    rw [hmw]
    exact le_min hbr0 (by omega)
  · exact le_trans (min_le_left _ _) hbr1

/-- Witness for C5 at `width = 240`, loudness `-23`, no LRA. -/
theorem marker_within_bounds_witness :
    0 ≤ marker_left 240 (-23) none ∧ marker_left 240 (-23) none ≤ (240 : ℤ) - 1 ∧
    0 ≤ marker_right 240 (-23) none ∧ marker_right 240 (-23) none ≤ (240 : ℤ) - 1 := by
  have h := marker_within_bounds 240 (-23) none (by norm_num)
  exact ⟨h.2.2.1, h.2.2.2.1, h.2.2.2.2.1, h.2.2.2.2.2⟩

/-- Counterexample to C5 as stated: clamped loudness `0` maps to
`x = width = 240`, which is outside `[0, width - 1]`. -/
theorem lufs_to_x_hits_width :
    lufs_to_x 240 (lufs_clamped 0) = 240 ∧
    ¬ lufs_to_x 240 (lufs_clamped 0) ≤ 240 - 1 := by
  with_unfolding_all decide

/-- C4 (amended): each portion of the range bar is coloured by the zone it
overlaps, drawn independently per zone-overlap; a bar lying entirely in the
quiet zone (here guaranteed by clamped loudness at most `-21` and LRA at
most `6`) is painted solid blue; a bar spanning the `-18` boundary (e.g.
loudness `-18`, LRA `4`) shows blue columns then green columns; the shared
boundary column `96` is painted by both adjacent zones and the upper
(later-drawn) zone wins, so it is green. -/
theorem zone_coloring :
    (∀ (w : ℕ) (lufs r : ℚ) (x : ℤ) (c : RGB),
        lufs ≤ -21 → r ≤ 6 →
        zoneSegmentColor w lufs (some r) x = some c → c = (70, 130, 180)) ∧
    zoneSegmentColor 240 (-23) (some 6) 40 = some (70, 130, 180) ∧
    zoneSegmentColor 240 (-18) (some 4) 95 = some (70, 130, 180) ∧
    zoneSegmentColor 240 (-18) (some 4) 96 = some (50, 180, 50) ∧
    zoneSegmentColor 240 (-18) (some 4) 112 = some (50, 180, 50) := by
  refine ⟨?_, by with_unfolding_all decide, by with_unfolding_all decide,
    by with_unfolding_all decide, by with_unfolding_all decide⟩
  intro w lufs r x c hl hr hres
  have hblr : bar_lufs_right lufs (some r) ≤ -18 := by
    unfold bar_lufs_right lufs_clamped lra_clamped lufs_min lufs_max
    have h1 : min (0:ℚ) lufs ≤ -21 := le_trans (min_le_right _ _) hl
    have h2 : max (-30:ℚ) (min 0 lufs) ≤ -21 := max_le (by norm_num) h1
    have h3 : min (20:ℚ) ((some r).getD 6) ≤ 6 := by
      simpa using le_trans (min_le_right (20:ℚ) r) hr
    have h4 : max (2:ℚ) (min 20 ((some r).getD 6)) ≤ 6 := max_le (by norm_num) h3
    linarith
  have k1 : min (bar_lufs_right lufs (some r)) (-14 : ℚ) ≤ bar_lufs_right lufs (some r) :=
    min_le_left _ _
  have k2 : (-18:ℚ) ≤ max (bar_lufs_left lufs (some r)) (-18) := le_max_right _ _
  have k3 : min (bar_lufs_right lufs (some r)) (-9 : ℚ) ≤ bar_lufs_right lufs (some r) :=
    min_le_left _ _
  have k4 : (-14:ℚ) ≤ max (bar_lufs_left lufs (some r)) (-14) := le_max_right _ _
  have k5 : min (bar_lufs_right lufs (some r)) (0 : ℚ) ≤ bar_lufs_right lufs (some r) :=
    min_le_left _ _
  have k6 : (-9:ℚ) ≤ max (bar_lufs_left lufs (some r)) (-9) := le_max_right _ _
  simp only [zoneSegmentColor, zones, List.foldl_cons, List.foldl_nil] at hres
  split_ifs at hres <;>
    first
    | exact (Option.some.inj hres).symm
    | exact Option.noConfusion hres
    | (exfalso; linarith)

/-- Witness for C4 at loudness `-23`, LRA `6`, column `40`. -/
theorem zone_coloring_witness :
    (-23 : ℚ) ≤ -21 ∧ ((70, 130, 180) : RGB) = (70, 130, 180) :=
  ⟨by norm_num,
    zone_coloring.1 240 (-23) 6 40 (70, 130, 180) (by norm_num) (by norm_num)
      (by with_unfolding_all decide)⟩

/-- Counterexample to C4 as stated: for loudness exactly at the `-18` zone
boundary (bar `[-20, -16]`, LRA `4`, width `240`) the boundary pixel column
`96` ends up green (the upper zone), not blue (the lower zone), because the
green segment is drawn after the blue one and both rectangles include the
shared column. -/
theorem zone_boundary_counterexample :
    zoneSegmentColor 240 (-18) (some 4) 96 = some (50, 180, 50) ∧
    some ((50, 180, 50) : RGB) ≠ some ((70, 130, 180) : RGB) := by
  with_unfolding_all decide

/-- Path of a cached stem file,
`os.path.join("/cache", cache_id, f"{stem}.wav")` (lines 185-190). -/
def cachedStemPath (cache_id stem : String) : String :=
  "/cache" ++ "/" ++ cache_id ++ "/" ++ stem ++ ".wav"

/-- Where `separate_stems` takes its stems from. -/
inductive SepSource where
  | cache
  | separator
deriving DecidableEq

/-- Cache-resolution stage of `separate_stems` (lines 188-193): with a cache
id, if every `STEMS` file exists under the key directory the cached paths
are returned immediately (the demucs separator at line 197 is never
reached); otherwise, or with no cache id, the separator runs.  `isFile`
models `os.path.isfile`. -/
def separateStemsSource (isFile : String → Bool) (cache_id : Option String) : SepSource :=
  match cache_id with
  | some cid =>
    if STEMS.all (fun stem => isFile (cachedStemPath cid stem)) then SepSource.cache
    else SepSource.separator
  | none => SepSource.separator

/-- C2: with an identity key, cache resolution is a HIT (separator not
invoked) if and only if all four expected stem files exist; if any one of
the four files is missing the result is a full MISS. -/
theorem cache_resolve_all_or_nothing (isFile : String → Bool) (cid : String) :
    (separateStemsSource isFile (some cid) = SepSource.cache ↔
      ∀ stem ∈ STEMS, isFile (cachedStemPath cid stem) = true) ∧
    ∀ stem ∈ STEMS, isFile (cachedStemPath cid stem) = false →
      separateStemsSource isFile (some cid) = SepSource.separator := by
  have hall : (STEMS.all (fun stem => isFile (cachedStemPath cid stem)) = true) ↔
      ∀ stem ∈ STEMS, isFile (cachedStemPath cid stem) = true := by
    simp [List.all_eq_true]
  have hdef : separateStemsSource isFile (some cid) =
      if STEMS.all (fun stem => isFile (cachedStemPath cid stem)) then SepSource.cache
      else SepSource.separator := rfl
  constructor
  · rw [hdef]
    split_ifs with h
    · exact iff_of_true rfl (hall.mp h)
    · exact iff_of_false (by decide) (fun hc => h (hall.mpr hc))
  · intro stem hs hfalse
    rw [hdef]
    have hnc : ¬ STEMS.all (fun s => isFile (cachedStemPath cid s)) = true := by
      intro hA
      have := hall.mp hA stem hs
      rw [this] at hfalse
      exact Bool.noConfusion hfalse
    rw [if_neg hnc]

/-- Witness for C2: key `"trackA"` with all files present resolves to the
cache. -/
theorem cache_resolve_witness :
    separateStemsSource (fun _ => true) (some "trackA") = SepSource.cache :=
  (cache_resolve_all_or_nothing (fun _ => true) "trackA").1.mpr (fun _ _ => rfl)

/-- Vertical offset of strip `i`, `HEADER_HEIGHT + i * SPEC_HEIGHT`
(line 479). -/
def stripY (i : ℕ) : ℕ := HEADER_HEIGHT + i * SPEC_HEIGHT

/-- Paste/label loop of `compose_stemmogram` (lines 478-481): strip `i` is
pasted at vertical offset `stripY i` and labelled `STEMS[i]`. -/
def composeStemOps : List (String × ℕ) :=
  (List.range STEMS.length).map (fun i => (STEMS.getD i "", stripY i))

/-- Counterexample to C3 as stated: under the label correspondence
vocal-lead = "vocals", percussive = "drums", bass = "bass",
residual-other = "other", the claimed stacking order
(vocal-lead, percussive, bass, residual-other) would give the paste list
`[("vocals", 80), ("drums", 330), ("bass", 580), ("other", 830)]`, which is
not what the code produces. -/
theorem compose_order_counterexample :
    composeStemOps ≠ [("vocals", 80), ("drums", 330), ("bass", 580), ("other", 830)] := by
  decide

/-- C3 (amended): the final image stacks the four stem strips top-to-bottom
in the order of `STEMS` — vocals (vocal-lead), other (residual-other), bass,
drums (percussive) — pasting the strip of index `i` at vertical offset
`HEADER_HEIGHT + i * SPEC_HEIGHT`. -/
theorem compose_order :
    composeStemOps = [("vocals", 80), ("other", 330), ("bass", 580), ("drums", 830)] := by
  decide

/-- How a run ends. -/
inductive RunOutcome where
  | completed
  | aborted
deriving DecidableEq

/-- Cache-commit phase after a successful separation, combining
`separate_stems` lines 219-228 and `main` lines 577-584.  `copyOk stem`
models whether `shutil.copy2` succeeds for that stem: the copy loop is NOT
wrapped in try/except, so a failing copy raises and the exception
propagates out of `separate_stems` and `main`, aborting the run.  `writeOk`
models whether writing `stem_metadata.json` succeeds: that write IS wrapped
in `try: ... except Exception: pass`, so both outcomes continue the run.
With no cache id neither write happens. -/
def cacheCommitOutcome (cache_id : Option String) (copyOk : String → Bool)
    (writeOk : Bool) : RunOutcome :=
  match cache_id with
  | none => RunOutcome.completed
  | some _ =>
    if STEMS.all copyOk then
      if writeOk then RunOutcome.completed else RunOutcome.completed
    else RunOutcome.aborted

/-- Counterexample to C6 as stated: with a cache key, a failure copying the
stem files into the cache directory aborts the run (the copy loop at lines
219-228 has no exception handler). -/
theorem cache_commit_abort_counterexample :
    cacheCommitOutcome (some "trackA") (fun _ => false) true = RunOutcome.aborted ∧
    RunOutcome.aborted ≠ RunOutcome.completed := by
  decide

/-- C6 (amended): only the per-stem loudness-metadata record write is
best-effort — its success or failure never changes the run outcome — and
when all stem-file copies succeed the run completes regardless of the
metadata write; a failing stem-file copy, by contrast, aborts the run. -/
theorem cache_commit_best_effort_metadata :
    (∀ (cid : String) (copyOk : String → Bool) (w1 w2 : Bool),
        cacheCommitOutcome (some cid) copyOk w1 = cacheCommitOutcome (some cid) copyOk w2) ∧
    ∀ (cid : String) (copyOk : String → Bool) (writeOk : Bool),
      (∀ stem ∈ STEMS, copyOk stem = true) →
      cacheCommitOutcome (some cid) copyOk writeOk = RunOutcome.completed := by
  have hdef : ∀ (cid : String) (copyOk : String → Bool) (writeOk : Bool),
      cacheCommitOutcome (some cid) copyOk writeOk =
        if STEMS.all copyOk then
          if writeOk then RunOutcome.completed else RunOutcome.completed
        else RunOutcome.aborted := fun _ _ _ => rfl
  constructor
  · intro cid copyOk w1 w2
    rw [hdef, hdef]
    split_ifs <;> rfl
  · intro cid copyOk writeOk hcopy
    rw [hdef]
    have hall : STEMS.all copyOk = true := by
      simp only [List.all_eq_true]
      exact hcopy
    rw [if_pos hall]
    split_ifs <;> rfl

/-- Witness for C6: with every copy succeeding and the metadata write
failing, the run still completes. -/
theorem cache_commit_witness :
    cacheCommitOutcome (some "trackA") (fun _ => true) false = RunOutcome.completed :=
  cache_commit_best_effort_metadata.2 "trackA" (fun _ => true) false (fun _ _ => rfl)

/-- Duration text of `extract_metadata` (lines 94-96):
`minutes = int(duration_s // 60)`, `seconds = int(duration_s % 60)`,
formatted `f"{minutes}:{seconds:02d}"`.  Python float floor-division and
modulo give `⌊d / 60⌋` and `d - 60 * ⌊d / 60⌋` (non-negative, then
truncated by `int`, i.e. floored). -/
def durationStr (duration_s : ℚ) : String :=
  let minutes : ℤ := ⌊duration_s / 60⌋
  let seconds : ℤ := ⌊duration_s - 60 * ⌊duration_s / 60⌋⌋
  toString minutes ++ ":" ++
    (if seconds < 10 then "0" ++ toString seconds else toString seconds)

/-- Fuel-indexed unrolling of the `while t < duration_s` loop of
`compose_stemmogram` (lines 513-521), collecting marker times `t` starting
at `30` and stepping by `30`. -/
def collectMarkers (duration_s : ℚ) : ℕ → ℕ → List ℕ
  | 0, _ => []
  | Nat.succ fuel, t =>
    if (t : ℚ) < duration_s then t :: collectMarkers duration_s fuel (t + 30)
    else []

/-- Time-marker list of `compose_stemmogram` (lines 510-521): markers only
when `duration_s > 0`, at `t = 30, 60, ...` while `t < duration_s`.  The
fuel `⌈duration_s / 30⌉.toNat + 1` strictly exceeds the number of loop
iterations, so the loop always terminates by its own guard. -/
def timeMarkers (duration_s : ℚ) : List ℕ :=
  if 0 < duration_s then collectMarkers duration_s (⌈duration_s / 30⌉.toNat + 1) 30
  else []

/-- Horizontal position of the marker for time `t`,
`int(t / duration_s * WIDTH)` (line 515). -/
def markerX (duration_s : ℚ) (t : ℕ) : ℤ := pyTrunc ((t : ℚ) / duration_s * WIDTH)

/-- C7: for duration `185.4` s the header duration text is `"3:05"` and the
time markers are exactly `t = 30, 60, ..., 180`; every marker's x-position
is within 1 pixel of `round(t / duration * WIDTH)`; when the duration is
zero (the `extract_metadata` default for an unknown duration, line 82) or
negative, no markers are drawn. -/
theorem time_axis_markers :
    durationStr (927/5) = "3:05" ∧
    timeMarkers (927/5) = [30, 60, 90, 120, 150, 180] ∧
    (∀ (d : ℚ) (t : ℕ), 0 < d →
      |markerX d t - round ((t : ℚ) / d * WIDTH)| ≤ 1) ∧
    ∀ d : ℚ, d ≤ 0 → timeMarkers d = [] := by
  refine ⟨by with_unfolding_all decide, by with_unfolding_all decide, ?_, ?_⟩
  · intro d t hd
    have hW : (0:ℚ) ≤ (WIDTH : ℚ) := by positivity
    have hq : (0:ℚ) ≤ (t : ℚ) / d * WIDTH := by positivity
    unfold markerX pyTrunc
    rw [if_pos hq, round_eq]
    have h1 : ⌊(t : ℚ) / d * WIDTH⌋ ≤ ⌊(t : ℚ) / d * WIDTH + 1/2⌋ :=
      Int.floor_le_floor (by linarith)
    have h2 : ⌊(t : ℚ) / d * WIDTH + 1/2⌋ ≤ ⌊(t : ℚ) / d * WIDTH⌋ + 1 := by
      have h3 : ((t : ℚ) / d * WIDTH + 1/2) < ⌊(t : ℚ) / d * WIDTH⌋ + 1 + 1 := by
        have := Int.lt_floor_add_one ((t : ℚ) / d * WIDTH)
        linarith
      have h4 : ⌊(t : ℚ) / d * WIDTH + 1/2⌋ < ⌊(t : ℚ) / d * WIDTH⌋ + 1 + 1 :=
        Int.floor_lt.mpr (by push_cast; linarith)
      omega
    rw [abs_le]
    omega
  · intro d hd
    unfold timeMarkers
    rw [if_neg (not_lt.mpr hd)]

/-- Witness for C7: the marker at `t = 30` for duration `185.4` s is within
1 pixel of the rounded ideal position. -/
theorem time_axis_markers_witness :
    (0:ℚ) < 927/5 ∧
    |markerX (927/5) 30 - round ((30 : ℚ) / (927/5) * WIDTH)| ≤ 1 :=
  ⟨by norm_num, time_axis_markers.2.2.1 (927/5) 30 (by norm_num)⟩

/-- One drawing/pasting action of `create_header`. -/
inductive HeaderOp where
  | text (x y : ℤ) (s : String) (fill : String)
  | lufsText (x y : ℤ) (lufs : ℚ) (lra : Option ℚ)
  | pasteMeter (x y : ℤ) (lufs : ℚ) (lra : Option ℚ) (w h : ℕ)
deriving DecidableEq

/-- Meter width used in the header (line 443). -/
def meter_width : ℕ := 200

/-- Meter height used in the header (line 444). -/
def meter_height : ℕ := 28

/-- Drawing sequence of `create_header` (lines 400-460): title text, the
statistics line, the right-aligned project reference, and — only when the
integrated loudness is available — the pasted range-bar meter and its
numeric label.  Font glyph widths are external, so the measured widths
`ref_w` (project-reference text) and `lufs_w` (loudness label) are
parameters, and the loudness label is recorded as a `lufsText` operation
carrying the raw values rather than the externally formatted string. -/
def createHeaderOps (name stats : String) (ref_w lufs_w : ℤ)
    (lufs : Option ℚ) (lra : Option ℚ) : List HeaderOp :=
  [HeaderOp.text 20 10 name "black",
   HeaderOp.text 20 46 stats "gray",
   HeaderOp.text ((WIDTH : ℤ) - ref_w - 20) 10 "pforret/stemmogram" "gray"]
  ++ match lufs with
     | none => []
     | some l =>
       let meter_x : ℤ := (WIDTH : ℤ) - meter_width - 20
       let meter_y : ℤ := 28
       [HeaderOp.pasteMeter meter_x meter_y l lra meter_width meter_height,
        HeaderOp.lufsText (meter_x - lufs_w - 10) (meter_y + 5) l lra]

/-- C8: when the integrated loudness is `None` the header consists of
exactly the three base text operations — no meter paste and no loudness
label — and those three operations are identical to the first three drawn
when a loudness value is present, so the rest of the header layout is
unchanged. -/
theorem header_no_lufs (name stats : String) (ref_w lufs_w : ℤ) (lra : Option ℚ) :
    createHeaderOps name stats ref_w lufs_w none lra =
      [HeaderOp.text 20 10 name "black",
       HeaderOp.text 20 46 stats "gray",
       HeaderOp.text ((WIDTH : ℤ) - ref_w - 20) 10 "pforret/stemmogram" "gray"] ∧
    (∀ l : ℚ, (createHeaderOps name stats ref_w lufs_w (some l) lra).take 3 =
      createHeaderOps name stats ref_w lufs_w none lra) ∧
    (createHeaderOps name stats ref_w lufs_w none lra).all
      (fun op =>
        match op with
        | HeaderOp.pasteMeter _ _ _ _ _ _ => false
        | HeaderOp.lufsText _ _ _ _ => false
        | _ => true) = true :=
  ⟨rfl, fun _ => rfl, rfl⟩

end Stemmogram
